import Mathlib

/-!
Shallow embedding of the Teleport `lib/services` certificate-authority
module: CA validation (`ValidateCertAuthority`, `checkUserOrHostCA`,
`checkJWTKeys`), JWT signer extraction (`GetJWTSigner`), TLS certificate
pools (`CertPool`, `CertPoolFromCertAuthorities`), the structural
equivalence check (`CertAuthoritiesEquivalent`), user-certificate
parameter defaulting (`UserCertParams.CheckAndSetDefaults`), and the
versioned marshal/unmarshal codec for CA and cluster-name resources
(`MarshalCertAuthority`, `UnmarshalCertAuthority`, `MarshalClusterName`,
`UnmarshalClusterName`).

Translated from `src/unnamed/part_000` and
`src/lib/services/clustername.go`.  External collaborators that are not
under `src/` (the key-material parsers, the JSON wire codec, the
role-map parser, the resources' own `CheckAndSetDefaults` self-checks,
and package constants) are modelled from the spec; each such definition
carries a doc comment starting with "Modelled from the spec:".
-/

/-- Errors are modelled as their message strings. -/
abbrev Err := String

/-- Raw key or certificate material handed to the external key-material
capability.  `data` is the byte content (as a string); `parses` records
whether the external parser accepts this blob. -/
structure Blob where
  data : String
  parses : Bool
deriving DecidableEq

/-- A TLS key pair of a CA: certificate and private key, both PEM blobs. -/
structure TLSKeyPair where
  cert : Blob
  key : Blob
deriving DecidableEq

/-- A JWT key pair of a CA: public key, and an optional private key
(an empty `data` field plays the role of an absent private key, as in
the source's `len(pair.PrivateKey) > 0` test). -/
structure JWTKeyPair where
  publicKey : Blob
  privateKey : Blob
deriving DecidableEq

/-- The CA type tag: `types.HostCA`, `types.UserCA`, `types.JWTSigner`,
or any other string value (the type is a string in the source). -/
inductive CertAuthType where
  | hostCA
  | userCA
  | jwtSigner
  | other (s : String)
deriving DecidableEq

/-- A single role-mapping rule: an external-party pattern and the local
roles it maps to (`types.RoleMapping`). -/
structure RoleMapping where
  remote : String
  localRoles : List String
deriving DecidableEq

/-- Resource metadata: name, storage-assigned resource ID, and expiry.
Expiry is an integer timestamp with `0` playing the role of Go's zero
`time.Time` (`IsZero`). -/
structure Metadata where
  name : String
  id : Int
  expires : Int
deriving DecidableEq

/-- The `types.CertAuthorityV2` resource. -/
structure CertAuthorityV2 where
  kind : String
  version : String
  metadata : Metadata
  caType : CertAuthType
  clusterName : String
  signingKeys : List Blob
  checkingKeys : List Blob
  tlsKeyPairs : List TLSKeyPair
  jwtKeyPairs : List JWTKeyPair
  roles : List String
  roleMap : List RoleMapping
  signingAlg : String
deriving DecidableEq

/-- The `types.ClusterNameV2` resource. -/
structure ClusterNameV2 where
  kind : String
  version : String
  metadata : Metadata
  clusterName : String
deriving DecidableEq

/-- `types.V2`, the only resource version the codec accepts. -/
def V2 : String := "2"

def CertAuthorityV2.SetResourceID (ca : CertAuthorityV2) (i : Int) : CertAuthorityV2 :=
  { ca with metadata := { ca.metadata with id := i } }

def CertAuthorityV2.GetResourceID (ca : CertAuthorityV2) : Int :=
  ca.metadata.id

def ClusterNameV2.SetResourceID (cn : ClusterNameV2) (i : Int) : ClusterNameV2 :=
  { cn with metadata := { cn.metadata with id := i } }

def ClusterNameV2.SetExpiry (cn : ClusterNameV2) (t : Int) : ClusterNameV2 :=
  { cn with metadata := { cn.metadata with expires := t } }

/-- A parsed private key (a signer handle produced by the external
key-material capability). -/
structure Signer where
  keyData : String
deriving DecidableEq

/-- A parsed public key (a verifier handle produced by the external
key-material capability). -/
structure Verifier where
  keyData : String
deriving DecidableEq

/-- Modelled from the spec: `utils.ParsePrivateKey` is the external
key-material capability `parse-private-key(bytes) -> signer | error`;
a blob the parser rejects surfaces a parse error, which callers
propagate. -/
def ParsePrivateKey (b : Blob) : Except Err Signer :=
  if b.parses then .ok ⟨b.data⟩ else .error ("failed to parse private key: " ++ b.data)

/-- Modelled from the spec: `utils.ParsePublicKey` is the external
key-material capability `parse-public-key(bytes) -> verifier | error`. -/
def ParsePublicKey (b : Blob) : Except Err Verifier :=
  if b.parses then .ok ⟨b.data⟩ else .error ("failed to parse public key: " ++ b.data)

/-- Modelled from the spec: `tlsca.ParseCertificatePEM` is the external
capability `parse-certificate-PEM(bytes) -> certificate | error`; the
parsed certificate is identified by its content. -/
def ParseCertificatePEM (b : Blob) : Except Err String :=
  if b.parses then .ok b.data else .error ("failed to parse certificate PEM: " ++ b.data)

/-- Parse a list of blobs in order, stopping at the first blob the
external parser rejects (helper used to model `sshutils.GetCheckers`
and `sshutils.GetSigners`). -/
def parseBlobs : List Blob → Except Err (List String)
  | [] => .ok []
  | b :: rest =>
    if b.parses then
      match parseBlobs rest with
      | .error e => .error e
      | .ok tl => .ok (b.data :: tl)
    else .error ("failed to parse key: " ++ b.data)

/-- Modelled from the spec: `sshutils.GetCheckers` is not under `src/`.
The spec describes host/user CA validation as attempting "to construct
verifier handles from every checking key ... (parse failures propagate
as the underlying parse error, not swallowed)"; this constructs a
verifier handle from every SSH checking key of the CA. -/
def GetCheckers (ca : CertAuthorityV2) : Except Err (List String) :=
  parseBlobs ca.checkingKeys

/-- Modelled from the spec: `sshutils.GetSigners` is not under `src/`.
Together with `GetCheckers` it realises the spec's "attempt to construct
verifier handles from every checking key and every TLS key pair (parse
failures propagate as the underlying parse error, not swallowed)":
this call covers the TLS key pairs, constructing a handle from each
pair's key material. -/
def GetSigners (ca : CertAuthorityV2) : Except Err (List String) :=
  parseBlobs (ca.tlsKeyPairs.map TLSKeyPair.key)

/-- Modelled from the spec: `parseRoleMap` (the Role-Map Validator) is
not under `src/`.  Per the spec it verifies "each rule is structurally
well-formed (non-empty match pattern, non-empty target role list) and
return[s] the parsed representation, or fail[s] with a structural error
identifying the offending rule". -/
def parseRoleMap : List RoleMapping → Except Err (List RoleMapping)
  | [] => .ok []
  | r :: rest =>
    if r.remote = "" then .error "role map rule is missing a match pattern"
    else if r.localRoles = [] then .error ("role map rule for " ++ r.remote ++ " is missing target roles")
    else
      match parseRoleMap rest with
      | .error e => .error e
      | .ok tl => .ok (r :: tl)

/-- Modelled from the spec: `types.CertAuthorityV2.CheckAndSetDefaults`
is not under `src/`.  Per the spec, validation step 1 runs "the CA's own
structural defaulting/self-check (required fields non-empty, version
recognized)"; the required non-empty field named by the spec's data
model is `clusterName`. -/
def CertAuthorityV2.CheckAndSetDefaults (ca : CertAuthorityV2) : Except Err Unit :=
  if ca.version ≠ V2 then .error ("unsupported resource version " ++ ca.version)
  else if ca.clusterName = "" then .error "cluster name is required"
  else .ok ()

/-- Modelled from the spec: `types.ClusterNameV2.CheckAndSetDefaults`
is not under `src/`.  It is the resource's own structural self-check
(required fields non-empty, version recognized): the spec requires
`clusterName` non-empty "for every CA and for the related ClusterName
resource" and makes any version other than "2" "a hard decode failure"
for cluster-name resources. -/
def ClusterNameV2.CheckAndSetDefaults (cn : ClusterNameV2) : Except Err Unit :=
  if cn.version ≠ V2 then .error ("unsupported resource version " ++ cn.version)
  else if cn.clusterName = "" then .error "cluster name is required"
  else .ok ()

/-- Modelled from the spec: `defaults.ApplicationTokenAlgorithm`, the
"fixed algorithm tag" for application-token signing, is not under
`src/`; it is a global constant. -/
def ApplicationTokenAlgorithm : String := "RS256"

/-- The clock abstraction injected into JWT signer construction
(`clockwork.Clock`); modelled as an opaque value identified by an
integer. -/
abbrev Clock := Int

/-- The configuration handed to JWT signer construction (`jwt.Config`). -/
structure JWTConfig where
  clock : Option Clock
  algorithm : String
  clusterName : String
  privateKey : Option Signer
  publicKey : Option Verifier
deriving DecidableEq

/-- A constructed JWT signing/verification key (`jwt.Key`), carrying the
configuration it was built from. -/
structure JWTKey where
  config : JWTConfig
deriving DecidableEq

/-- Modelled from the spec: `jwt.New` is not under `src/`.  It
"construct[s] a signer configuration with the parsed material and
attempt[s] to build a usable signer/verifier object from it (fail if
impossible)"; the signer is "bound to the CA's cluster name", so a
configuration without a cluster name, or without any key material, is
unusable. -/
def jwtNew (cfg : JWTConfig) : Except Err JWTKey :=
  if cfg.clusterName = "" then .error "jwt: cluster name is required"
  else if cfg.privateKey = none ∧ cfg.publicKey = none then .error "jwt: missing key material"
  else .ok ⟨cfg⟩

/-- `checkUserOrHostCA` from `src/unnamed/part_000`. -/
def checkUserOrHostCA (ca : CertAuthorityV2) : Except Err Unit :=
  if ca.checkingKeys.length = 0 then .error "certificate authority missing SSH public keys"
  else if ca.tlsKeyPairs.length = 0 then .error "certificate authority missing TLS key pairs"
  else
    match GetCheckers ca with
    | .error e => .error e
    | .ok _ =>
      match GetSigners ca with
      | .error e => .error e
      | .ok _ =>
        if ca.roles.length ≠ 0 ∧ ca.roleMap.length ≠ 0 then
          .error "should set either roles or role_map, not both"
        else
          match parseRoleMap ca.roleMap with
          | .error e => .error e
          | .ok _ => .ok ()

/-- The loop body of `checkJWTKeys`: the `privateKey` variable is
declared outside the loop in the source, so a pair without a private key
reuses the most recently parsed one; the accumulator argument models
that variable. -/
def checkJWTKeysLoop (clusterName : String) (privateKey : Option Signer) :
    List JWTKeyPair → Except Err Unit
  | [] => .ok ()
  | pair :: rest =>
    let step : Except Err (Option Signer) :=
      if pair.privateKey.data.length > 0 then
        match ParsePrivateKey pair.privateKey with
        | .error e => .error e
        | .ok s => .ok (some s)
      else .ok privateKey
    match step with
    | .error e => .error e
    | .ok pk =>
      match ParsePublicKey pair.publicKey with
      | .error e => .error e
      | .ok pub =>
        match jwtNew { clock := none, algorithm := ApplicationTokenAlgorithm,
                       clusterName := clusterName, privateKey := pk,
                       publicKey := some pub } with
        | .error e => .error e
        | .ok _ => checkJWTKeysLoop clusterName pk rest

/-- `checkJWTKeys` from `src/unnamed/part_000`. -/
def checkJWTKeys (ca : CertAuthorityV2) : Except Err Unit :=
  if ca.jwtKeyPairs.length = 0 then .error "missing JWT CA"
  else checkJWTKeysLoop ca.clusterName none ca.jwtKeyPairs

/-- `ValidateCertAuthority` from `src/unnamed/part_000`. -/
def ValidateCertAuthority (ca : CertAuthorityV2) : Except Err Unit :=
  match ca.CheckAndSetDefaults with
  | .error e => .error e
  | .ok _ =>
    match ca.caType with
    | .userCA => checkUserOrHostCA ca
    | .hostCA => checkUserOrHostCA ca
    | .jwtSigner => checkJWTKeys ca
    | .other s => .error ("invalid CA type " ++ s)

/-- `GetJWTSigner` from `src/unnamed/part_000`. -/
def GetJWTSigner (ca : CertAuthorityV2) (clock : Clock) : Except Err JWTKey :=
  match ca.jwtKeyPairs with
  | [] => .error "no JWT keypairs found"
  | pair :: _ =>
    match ParsePrivateKey pair.privateKey with
    | .error e => .error e
    | .ok privateKey =>
      jwtNew { clock := some clock, algorithm := ApplicationTokenAlgorithm,
               clusterName := ca.clusterName, privateKey := some privateKey,
               publicKey := none }

/-- `CertAuthoritiesEquivalent` from `src/unnamed/part_000`:
`cmp.Equal(lhs, rhs, cmpopts.IgnoreFields(types.Metadata{}, "ID"))`,
i.e. structural equality after ignoring the metadata `ID` field (the
only field of type `Metadata` is `metadata`). -/
def CertAuthoritiesEquivalent (lhs rhs : CertAuthorityV2) : Bool :=
  lhs.SetResourceID 0 = rhs.SetResourceID 0

/-- An x509 certificate pool, modelled as the list of certificates added
to it.  `AddCert` skips a certificate that is already in the pool. -/
def poolAddCert (pool : List String) (c : String) : List String :=
  if c ∈ pool then pool else pool ++ [c]

/-- Add every TLS key pair's certificate of one CA to the pool, parsing
each from PEM; a parse failure aborts. -/
def poolAddPairs (pool : List String) : List TLSKeyPair → Except Err (List String)
  | [] => .ok pool
  | kp :: rest =>
    match ParseCertificatePEM kp.cert with
    | .error e => .error e
    | .ok c => poolAddPairs (poolAddCert pool c) rest

/-- The loop of `CertPoolFromCertAuthorities`: CAs with zero TLS key
pairs are skipped. -/
def certPoolLoop (pool : List String) : List CertAuthorityV2 → Except Err (List String)
  | [] => .ok pool
  | ca :: rest =>
    if ca.tlsKeyPairs.length = 0 then certPoolLoop pool rest
    else
      match poolAddPairs pool ca.tlsKeyPairs with
      | .error e => .error e
      | .ok pool2 => certPoolLoop pool2 rest

/-- `CertPoolFromCertAuthorities` from `src/unnamed/part_000`. -/
def CertPoolFromCertAuthorities (cas : List CertAuthorityV2) : Except Err (List String) :=
  certPoolLoop [] cas

/-- `CertPool` from `src/unnamed/part_000`. -/
def CertPool (ca : CertAuthorityV2) : Except Err (List String) :=
  if ca.tlsKeyPairs.length = 0 then .error "certificate authority has no TLS certificates"
  else poolAddPairs [] ca.tlsKeyPairs

/-- `defaults.MinCertDuration` is not under `src/`.  Modelled from the
spec: the minimum certificate duration is a fixed package constant (one
minute, in nanoseconds). -/
def MinCertDuration : Int := 60000000000

/-- `UserCertParams` from `src/unnamed/part_000` (durations are integer
nanosecond counts). -/
structure UserCertParams where
  privateCASigningKey : String
  caSigningAlg : String
  publicUserKey : String
  ttl : Int
  username : String
  impersonator : String
  allowedLogins : List String
  permitX11Forwarding : Bool
  permitAgentForwarding : Bool
  permitPortForwarding : Bool
  roles : List String
  certificateFormat : String
  routeToCluster : String
  traits : List (String × List String)
  activeRequests : List String
  mfaVerified : String
  clientIP : String
deriving DecidableEq

/-- `UserCertParams.CheckAndSetDefaults` from `src/unnamed/part_000`;
the in-place mutation of the receiver is modelled by returning the
updated record on success. -/
def UserCertParams.CheckAndSetDefaults (c : UserCertParams) : Except Err UserCertParams :=
  if c.privateCASigningKey.length = 0 ∨ c.caSigningAlg = "" then
    .error "PrivateCASigningKey and CASigningAlg are required"
  else
    let c2 := if c.ttl < MinCertDuration then { c with ttl := MinCertDuration } else c
    if c2.allowedLogins.length = 0 then .error "AllowedLogins are required"
    else .ok c2

/-- A wire buffer, modelled from the spec: `utils.FastMarshal` /
`utils.FastUnmarshal` are not under `src/`; the JSON bytes are modelled
as the resource they encode (decoding into a mismatched concrete type,
or an empty buffer, is a decode failure). -/
inductive WireDoc where
  | caDoc (v : CertAuthorityV2)
  | clusterNameDoc (v : ClusterNameV2)
  | emptyDoc
deriving DecidableEq

/-- The generic resource header (`types.ResourceHeader`): kind, version
and metadata peeled off any resource buffer. -/
structure ResourceHeader where
  kind : String
  version : String
  metadata : Metadata
deriving DecidableEq

/-- Modelled from the spec: decoding a buffer into the generic resource
header ("peek a generic resource header to read `version`"). -/
def FastUnmarshalHeader : WireDoc → Except Err ResourceHeader
  | .caDoc v => .ok ⟨v.kind, v.version, v.metadata⟩
  | .clusterNameDoc v => .ok ⟨v.kind, v.version, v.metadata⟩
  | .emptyDoc => .error "missing resource data"

/-- Modelled from the spec: decoding a buffer into a concrete
`CertAuthorityV2`. -/
def FastUnmarshalCA : WireDoc → Except Err CertAuthorityV2
  | .caDoc v => .ok v
  | _ => .error "failed to decode certificate authority"

/-- Modelled from the spec: decoding a buffer into a concrete
`ClusterNameV2`. -/
def FastUnmarshalClusterName : WireDoc → Except Err ClusterNameV2
  | .clusterNameDoc v => .ok v
  | _ => .error "failed to decode cluster name"

/-- The marshal configuration collected from options
(`services.MarshalConfig`): resource-ID override, expiry override, and
the preserve-resource-ID flag, as listed by the spec's "Marshal
options". -/
structure MarshalConfig where
  id : Int
  expires : Int
  preserveResourceID : Bool
deriving DecidableEq

def defaultMarshalConfig : MarshalConfig :=
  { id := 0, expires := 0, preserveResourceID := false }

/-- A marshal option mutates the collected configuration. -/
abbrev MarshalOption := MarshalConfig → MarshalConfig

/-- Modelled from the spec: `CollectOptions` folds the caller-supplied
options over the default configuration. -/
def CollectOptions (opts : List MarshalOption) : Except Err MarshalConfig :=
  .ok (opts.foldl (fun c f => f c) defaultMarshalConfig)

/-- The `WithResourceID` marshal option: stamp this ID onto the decoded
object. -/
def WithResourceID (i : Int) : MarshalOption :=
  fun c => { c with id := i }

/-- The `WithExpires` marshal option: stamp this expiry onto the decoded
object. -/
def WithExpires (t : Int) : MarshalOption :=
  fun c => { c with expires := t }

/-- The `PreserveResourceID` marshal option: keep the object's existing
ID on marshal instead of zeroing it. -/
def PreserveResourceID : MarshalOption :=
  fun c => { c with preserveResourceID := true }

/-- `UnmarshalCertAuthority` from `src/unnamed/part_000`: peek the
header, accept only version "2", decode, validate, then stamp the
resource-ID override if one was supplied. -/
def UnmarshalCertAuthority (bytes : WireDoc) (opts : List MarshalOption) :
    Except Err CertAuthorityV2 :=
  match CollectOptions opts with
  | .error e => .error e
  | .ok cfg =>
    match FastUnmarshalHeader bytes with
    | .error e => .error e
    | .ok h =>
      if h.version = V2 then
        match FastUnmarshalCA bytes with
        | .error e => .error e
        | .ok ca =>
          match ValidateCertAuthority ca with
          | .error e => .error e
          | .ok _ =>
            if cfg.id ≠ 0 then .ok (ca.SetResourceID cfg.id) else .ok ca
      else .error ("cert authority resource version " ++ h.version ++ " is not supported")

/-- `MarshalCertAuthority` from `src/unnamed/part_000`: the declared
version must be "2"; unless `PreserveResourceID` was given, serialize a
copy with the resource ID zeroed, leaving the caller's object untouched
(marshalling is a pure function of its argument). -/
def MarshalCertAuthority (certAuthority : CertAuthorityV2) (opts : List MarshalOption) :
    Except Err WireDoc :=
  match CollectOptions opts with
  | .error e => .error e
  | .ok cfg =>
    if certAuthority.version ≠ V2 then
      .error ("mismatched certificate authority version " ++ certAuthority.version)
    else if ¬ cfg.preserveResourceID then
      .ok (.caDoc (certAuthority.SetResourceID 0))
    else .ok (.caDoc certAuthority)

/-- `UnmarshalClusterName` from `src/lib/services/clustername.go`:
reject an empty buffer, decode, run the resource's self-check, then
stamp the resource-ID and expiry overrides if supplied. -/
def UnmarshalClusterName (bytes : WireDoc) (opts : List MarshalOption) :
    Except Err ClusterNameV2 :=
  if bytes = .emptyDoc then .error "missing resource data"
  else
    match CollectOptions opts with
    | .error e => .error e
    | .ok cfg =>
      match FastUnmarshalClusterName bytes with
      | .error e => .error e
      | .ok clusterName =>
        match clusterName.CheckAndSetDefaults with
        | .error e => .error e
        | .ok _ =>
          let cn1 := if cfg.id ≠ 0 then clusterName.SetResourceID cfg.id else clusterName
          let cn2 := if cfg.expires ≠ 0 then cn1.SetExpiry cfg.expires else cn1
          .ok cn2

/-- `MarshalClusterName` from `src/lib/services/clustername.go`. -/
def MarshalClusterName (clusterName : ClusterNameV2) (opts : List MarshalOption) :
    Except Err WireDoc :=
  match CollectOptions opts with
  | .error e => .error e
  | .ok cfg =>
    if clusterName.version ≠ V2 then
      .error ("mismatched cluster name version " ++ clusterName.version)
    else if ¬ cfg.preserveResourceID then
      .ok (.clusterNameDoc (clusterName.SetResourceID 0))
    else .ok (.clusterNameDoc clusterName)

/-- Whether a call failed (returned a Go-style non-nil error). -/
def isError {α : Type} : Except Err α → Bool
  | .error _ => true
  | .ok _ => false

/-- A blob the external key-material parsers accept. -/
def blobOK (s : String) : Blob := { data := s, parses := true }

/-- A blob the external key-material parsers reject. -/
def blobBad (s : String) : Blob := { data := s, parses := false }

def baseMeta : Metadata := { name := "ca", id := 0, expires := 0 }

/-- A well-formed host CA used as a concrete test vehicle. -/
def caHost : CertAuthorityV2 :=
  { kind := "cert_authority", version := V2, metadata := baseMeta,
    caType := .hostCA, clusterName := "c", signingKeys := [],
    checkingKeys := [blobOK "ck"],
    tlsKeyPairs := [{ cert := blobOK "crt", key := blobOK "k" }],
    jwtKeyPairs := [], roles := ["admin"], roleMap := [], signingAlg := "" }

/-- A well-formed JWT CA that carries both a non-empty role list and a
non-empty role map. -/
def caJWTBoth : CertAuthorityV2 :=
  { kind := "cert_authority", version := V2, metadata := baseMeta,
    caType := .jwtSigner, clusterName := "c", signingKeys := [],
    checkingKeys := [], tlsKeyPairs := [],
    jwtKeyPairs := [{ publicKey := blobOK "pub", privateKey := blobOK "priv" }],
    roles := ["admin"], roleMap := [{ remote := "rem", localRoles := ["admin"] }],
    signingAlg := "" }

/-- A well-formed cluster-name resource used as a concrete test vehicle. -/
def cnEx : ClusterNameV2 :=
  { kind := "cluster_name", version := V2, metadata := baseMeta, clusterName := "c" }

/-- `cnEx` with an unsupported declared resource version. -/
def cn99 : ClusterNameV2 := { cnEx with version := "99" }

/-- A CA with two TLS key pairs (the spec's pool-building example). -/
def ca1 : CertAuthorityV2 :=
  { caHost with tlsKeyPairs := [{ cert := blobOK "crt1", key := blobOK "k1" },
                                { cert := blobOK "crt2", key := blobOK "k2" }] }

/-- A CA with zero TLS key pairs (the spec's pool-building example). -/
def ca2 : CertAuthorityV2 := { caHost with tlsKeyPairs := [] }

theorem parseBlobs_ok (l : List Blob) (h : ∀ b ∈ l, b.parses = true) :
    parseBlobs l = .ok (l.map Blob.data) := by
  induction l with
  | nil => rfl
  | cons b rest ih =>
    have hb : b.parses = true := h b (by simp)
    have hrest : ∀ x ∈ rest, x.parses = true := fun x hx => h x (by simp [hx])
    simp [parseBlobs, hb, ih hrest]

theorem parseBlobs_bad (l : List Blob) (h : ∃ b ∈ l, b.parses = false) :
    ∃ e, parseBlobs l = .error e := by
  induction l with
  | nil => simp at h
  | cons b rest ih =>
    by_cases hb : b.parses = true
    · obtain ⟨x, hx, hxp⟩ := h
      rcases List.mem_cons.mp hx with hxb | hxr
      · subst hxb; rw [hb] at hxp; exact absurd hxp (by simp)
      · obtain ⟨e, he⟩ := ih ⟨x, hxr, hxp⟩
        refine ⟨e, ?_⟩
        simp [parseBlobs, hb, he]
    · exact ⟨"failed to parse key: " ++ b.data, by simp [parseBlobs, hb]⟩

/-- C10: for `UserCertParams` with non-empty `PrivateCASigningKey`,
`CASigningAlg` and `AllowedLogins`, `CheckAndSetDefaults` succeeds even
when `TTL` is below the minimum certificate duration: it raises `TTL`
to that minimum instead of erroring, and leaves every other field
unchanged. -/
theorem c10_user_cert_params_ttl_floor (c : UserCertParams)
    (hkey : c.privateCASigningKey.length ≠ 0) (halg : c.caSigningAlg ≠ "")
    (hlog : c.allowedLogins.length ≠ 0) (httl : c.ttl < MinCertDuration) :
    UserCertParams.CheckAndSetDefaults c = .ok { c with ttl := MinCertDuration } := by
  have h1 : ¬ (c.privateCASigningKey.length = 0 ∨ c.caSigningAlg = "") := by
    push_neg
    exact ⟨hkey, halg⟩
  simp [UserCertParams.CheckAndSetDefaults, h1, httl, hlog]

def userParamsEx : UserCertParams :=
  { privateCASigningKey := "key", caSigningAlg := "alg", publicUserKey := "",
    ttl := 5, username := "u", impersonator := "", allowedLogins := ["root"],
    permitX11Forwarding := false, permitAgentForwarding := false,
    permitPortForwarding := false, roles := [], certificateFormat := "",
    routeToCluster := "", traits := [], activeRequests := [],
    mfaVerified := "", clientIP := "" }

theorem c10_user_cert_params_ttl_floor_witness :
    UserCertParams.CheckAndSetDefaults userParamsEx = .ok { userParamsEx with ttl := MinCertDuration } :=
  c10_user_cert_params_ttl_floor userParamsEx (by decide) (by decide) (by decide) (by decide)

/-- C9: `CertAuthoritiesEquivalent lhs rhs` is true exactly when `lhs`
and `rhs` are structurally equal up to the resource-ID metadata field
(formally: `lhs` equals `rhs` with `rhs`'s resource ID replaced by
`lhs`'s); in particular two CAs differing only in resource ID are
equivalent, and any difference in another field refutes equivalence. -/
theorem c9_equivalence_ignores_resource_id (lhs rhs : CertAuthorityV2) :
    (CertAuthoritiesEquivalent lhs rhs = true ↔
      lhs = { rhs with metadata := { rhs.metadata with id := lhs.metadata.id } }) ∧
    (∀ n : Int, CertAuthoritiesEquivalent (rhs.SetResourceID n) rhs = true) := by
  obtain ⟨lk, lv, ⟨lmn, lmid, lmex⟩, lt, lc, lsk, lck, ltls, ljwt, lr, lrm, lsa⟩ := lhs
  obtain ⟨rk, rv, ⟨rmn, rmid, rmex⟩, rt, rc, rsk, rck, rtls, rjwt, rr, rrm, rsa⟩ := rhs
  constructor
  · simp [CertAuthoritiesEquivalent, CertAuthorityV2.SetResourceID]
  · intro n
    simp [CertAuthoritiesEquivalent, CertAuthorityV2.SetResourceID]

theorem c9_equivalence_ignores_resource_id_witness :
    CertAuthoritiesEquivalent (caHost.SetResourceID 7) caHost = true :=
  (c9_equivalence_ignores_resource_id caHost caHost).2 7

/-- C5: marshaling a CA or a cluster-name resource without the
`PreserveResourceID` option serializes a copy whose resource ID is zero,
regardless of the input object's ID; the caller's object is untouched
(the marshal functions are pure: they only build and return the
zeroed copy). -/
theorem c5_marshal_zeroes_resource_id (ca : CertAuthorityV2) (cn : ClusterNameV2)
    (hca : ca.version = V2) (hcn : cn.version = V2) :
    MarshalCertAuthority ca [] = .ok (.caDoc (ca.SetResourceID 0)) ∧
    MarshalClusterName cn [] = .ok (.clusterNameDoc (cn.SetResourceID 0)) ∧
    (ca.SetResourceID 0).metadata.id = 0 ∧ (cn.SetResourceID 0).metadata.id = 0 := by
  refine ⟨?_, ?_, ?_, ?_⟩
  · simp [MarshalCertAuthority, CollectOptions, defaultMarshalConfig, hca]
  · simp [MarshalClusterName, CollectOptions, defaultMarshalConfig, hcn]
  · simp [CertAuthorityV2.SetResourceID]
  · simp [ClusterNameV2.SetResourceID]

theorem c5_marshal_zeroes_resource_id_witness :
    MarshalCertAuthority caHost [] = .ok (.caDoc (caHost.SetResourceID 0)) ∧
    MarshalClusterName cnEx [] = .ok (.clusterNameDoc (cnEx.SetResourceID 0)) ∧
    (caHost.SetResourceID 0).metadata.id = 0 ∧ (cnEx.SetResourceID 0).metadata.id = 0 :=
  c5_marshal_zeroes_resource_id caHost cnEx rfl rfl

/-- C2: for any buffer whose resource header decodes with a version
other than "2", `UnmarshalCertAuthority` and `UnmarshalClusterName`
both fail; neither returns a decoded resource. -/
theorem c2_unsupported_version_rejected (w : WireDoc) (opts : List MarshalOption)
    (h : ResourceHeader) (hh : FastUnmarshalHeader w = .ok h) (hv : h.version ≠ V2) :
    isError (UnmarshalCertAuthority w opts) = true ∧
    isError (UnmarshalClusterName w opts) = true := by
  cases w with
  | emptyDoc => simp [FastUnmarshalHeader] at hh
  | caDoc v =>
    have hveq : v.version ≠ V2 := by
      simp [FastUnmarshalHeader] at hh
      rw [← hh] at hv
      exact hv
    constructor
    · simp [UnmarshalCertAuthority, CollectOptions, FastUnmarshalHeader, hveq, isError]
    · simp [UnmarshalClusterName, CollectOptions, FastUnmarshalClusterName, isError]
  | clusterNameDoc v =>
    have hveq : v.version ≠ V2 := by
      simp [FastUnmarshalHeader] at hh
      rw [← hh] at hv
      exact hv
    constructor
    · simp [UnmarshalCertAuthority, CollectOptions, FastUnmarshalHeader, hveq, isError]
    · simp [UnmarshalClusterName, CollectOptions, FastUnmarshalClusterName,
            ClusterNameV2.CheckAndSetDefaults, hveq, isError]

theorem c2_unsupported_version_rejected_witness :
    isError (UnmarshalCertAuthority (.clusterNameDoc cn99) []) = true ∧
    isError (UnmarshalClusterName (.clusterNameDoc cn99) []) = true :=
  c2_unsupported_version_rejected (.clusterNameDoc cn99) [] ⟨cn99.kind, cn99.version, cn99.metadata⟩
    rfl (by decide)

/-- C6: for any CA that passes `ValidateCertAuthority`, unmarshaling the
bytes produced by marshaling it with `PreserveResourceID` yields a CA
structurally equal to the original, resource ID included. -/
theorem c6_roundtrip_preserve_resource_id (ca : CertAuthorityV2)
    (hval : ValidateCertAuthority ca = .ok ()) :
    ∃ w, MarshalCertAuthority ca [PreserveResourceID] = .ok w ∧
         UnmarshalCertAuthority w [] = .ok ca := by
  have hver : ca.version = V2 := by
    by_contra hne
    simp [ValidateCertAuthority, CertAuthorityV2.CheckAndSetDefaults, hne] at hval
  refine ⟨.caDoc ca, ?_, ?_⟩
  · simp [MarshalCertAuthority, CollectOptions, defaultMarshalConfig, PreserveResourceID, hver]
  · simp [UnmarshalCertAuthority, CollectOptions, defaultMarshalConfig,
          FastUnmarshalHeader, FastUnmarshalCA, hver, hval]

theorem c6_roundtrip_preserve_resource_id_witness :
    ∃ w, MarshalCertAuthority caHost [PreserveResourceID] = .ok w ∧
         UnmarshalCertAuthority w [] = .ok caHost :=
  c6_roundtrip_preserve_resource_id caHost (by rfl)

/-- C1 counterexample: a JWT-signer CA with both a non-empty role list
and a non-empty role map passes `ValidateCertAuthority`, so validation
does not reject the roles/role-map combination "regardless of the CA's
type": the mutual-exclusion check runs only for host/user CAs. -/
theorem c1_counterexample_jwt_both_roles_and_rolemap :
    caJWTBoth.caType = .jwtSigner ∧ caJWTBoth.roles ≠ [] ∧ caJWTBoth.roleMap ≠ [] ∧
    ValidateCertAuthority caJWTBoth = .ok () :=
  ⟨rfl, by decide, by decide, by rfl⟩

/-- C1 (amended): for CAs of type HostCA or UserCA, validation fails
whenever both the role list and the role map are non-empty; clearing
either field makes validation depend only on the remaining one
(`roleMap := []` validates outright once the key material is
well-formed, `roles := []` reduces to the role-map validator's
verdict).  JWT-signer CAs are exempt from the exclusion check. -/
theorem c1_amended_host_user_role_exclusion (ca : CertAuthorityV2)
    (htype : ca.caType = .hostCA ∨ ca.caType = .userCA) :
    (ca.roles ≠ [] → ca.roleMap ≠ [] → isError (ValidateCertAuthority ca) = true) ∧
    (ca.CheckAndSetDefaults = .ok () →
     ca.checkingKeys ≠ [] → ca.tlsKeyPairs ≠ [] →
     (∀ b ∈ ca.checkingKeys, b.parses = true) →
     (∀ kp ∈ ca.tlsKeyPairs, kp.key.parses = true) →
     ValidateCertAuthority { ca with roleMap := [] } = .ok () ∧
     ValidateCertAuthority { ca with roles := [] } =
       Except.map (fun _ => ()) (parseRoleMap ca.roleMap)) := by
  constructor
  · intro hr hm
    have hr' : ¬ ca.roles.length = 0 := fun h => hr (List.length_eq_zero.mp h)
    have hm' : ¬ ca.roleMap.length = 0 := fun h => hm (List.length_eq_zero.mp h)
    rcases hcs : ca.CheckAndSetDefaults with e | u
    · rcases htype with ht | ht <;> simp [ValidateCertAuthority, hcs, ht, isError]
    · have hcheck : isError (checkUserOrHostCA ca) = true := by
        unfold checkUserOrHostCA
        by_cases h1 : ca.checkingKeys.length = 0
        · simp [h1, isError]
        · by_cases h2 : ca.tlsKeyPairs.length = 0
          · simp [h1, h2, isError]
          · rcases hgc : GetCheckers ca with e | l
            · simp [h1, h2, hgc, isError]
            · rcases hgs : GetSigners ca with e | l2
              · simp [h1, h2, hgc, hgs, isError]
              · simp [h1, h2, hgc, hgs, hr', hm', isError]
      rcases htype with ht | ht <;> simpa [ValidateCertAuthority, hcs, ht] using hcheck
  · intro hok hck htls hparse hparsetls
    have hver : ca.version = V2 := by
      by_contra hne
      simp [CertAuthorityV2.CheckAndSetDefaults, hne] at hok
    have hcn : ¬ ca.clusterName = "" := by
      intro he
      simp [CertAuthorityV2.CheckAndSetDefaults, he, hver] at hok
    have hck' : ¬ ca.checkingKeys.length = 0 := fun h => hck (List.length_eq_zero.mp h)
    have htls' : ¬ ca.tlsKeyPairs.length = 0 := fun h => htls (List.length_eq_zero.mp h)
    have hgc := parseBlobs_ok ca.checkingKeys hparse
    have hgs := parseBlobs_ok (ca.tlsKeyPairs.map TLSKeyPair.key) (by
      intro b hb
      rcases List.mem_map.mp hb with ⟨kp, hkp, hrw⟩
      rw [← hrw]
      exact hparsetls kp hkp)
    constructor
    · rcases htype with ht | ht <;>
        simp [ValidateCertAuthority, CertAuthorityV2.CheckAndSetDefaults, hver, hcn, ht,
              checkUserOrHostCA, hck', htls', GetCheckers, GetSigners, hgc, hgs, parseRoleMap]
    · rcases hrm : parseRoleMap ca.roleMap with e | tl <;>
        rcases htype with ht | ht <;>
        simp [ValidateCertAuthority, CertAuthorityV2.CheckAndSetDefaults, hver, hcn, ht,
              checkUserOrHostCA, hck', htls', GetCheckers, GetSigners, hgc, hgs, hrm, Except.map]

theorem c1_amended_host_user_role_exclusion_witness :
    isError (ValidateCertAuthority { caHost with roleMap := [{ remote := "rem", localRoles := ["admin"] }] }) = true ∧
    ValidateCertAuthority { caHost with roleMap := [] } = .ok () :=
  ⟨(c1_amended_host_user_role_exclusion
      { caHost with roleMap := [{ remote := "rem", localRoles := ["admin"] }] }
      (Or.inl rfl)).1 (by decide) (by decide),
   ((c1_amended_host_user_role_exclusion caHost (Or.inl rfl)).2
      (by rfl) (by decide) (by decide) (by decide) (by decide)).1⟩

/-- C4: for host/user CAs (whose structural self-check passes),
validation fails on zero checking keys or zero TLS key pairs; otherwise
it constructs handles from every checking key and every TLS key pair,
propagating the underlying parse error verbatim; only when those
succeed does it reach the roles/role-map exclusion and, past it, return
the role-map validator's verdict. -/
theorem c4_host_user_validation_pipeline (ca : CertAuthorityV2)
    (htype : ca.caType = .hostCA ∨ ca.caType = .userCA)
    (hok : ca.CheckAndSetDefaults = .ok ()) :
    (ca.checkingKeys = [] → isError (ValidateCertAuthority ca) = true) ∧
    (ca.tlsKeyPairs = [] → isError (ValidateCertAuthority ca) = true) ∧
    (∀ e, ca.checkingKeys ≠ [] → ca.tlsKeyPairs ≠ [] → GetCheckers ca = .error e →
      ValidateCertAuthority ca = .error e) ∧
    (∀ l e, ca.checkingKeys ≠ [] → ca.tlsKeyPairs ≠ [] → GetCheckers ca = .ok l →
      GetSigners ca = .error e → ValidateCertAuthority ca = .error e) ∧
    (∀ lc ls, ca.checkingKeys ≠ [] → ca.tlsKeyPairs ≠ [] → GetCheckers ca = .ok lc →
      GetSigners ca = .ok ls → ¬(ca.roles ≠ [] ∧ ca.roleMap ≠ []) →
      ValidateCertAuthority ca = Except.map (fun _ => ()) (parseRoleMap ca.roleMap)) := by
  have hval : ValidateCertAuthority ca = checkUserOrHostCA ca := by
    rcases htype with ht | ht <;> simp [ValidateCertAuthority, hok, ht]
  refine ⟨?_, ?_, ?_, ?_, ?_⟩
  · intro h1
    rw [hval]
    simp [checkUserOrHostCA, h1, isError]
  · intro h2
    rw [hval]
    unfold checkUserOrHostCA
    by_cases h1 : ca.checkingKeys.length = 0
    · simp [h1, isError]
    · simp [h1, h2, isError]
  · intro e h1 h2 hgc
    have h1' : ¬ ca.checkingKeys.length = 0 := fun h => h1 (List.length_eq_zero.mp h)
    have h2' : ¬ ca.tlsKeyPairs.length = 0 := fun h => h2 (List.length_eq_zero.mp h)
    rw [hval]
    simp [checkUserOrHostCA, h1', h2', hgc]
  · intro l e h1 h2 hgc hgs
    have h1' : ¬ ca.checkingKeys.length = 0 := fun h => h1 (List.length_eq_zero.mp h)
    have h2' : ¬ ca.tlsKeyPairs.length = 0 := fun h => h2 (List.length_eq_zero.mp h)
    rw [hval]
    simp [checkUserOrHostCA, h1', h2', hgc, hgs]
  · intro lc ls h1 h2 hgc hgs hnb
    have h1' : ¬ ca.checkingKeys.length = 0 := fun h => h1 (List.length_eq_zero.mp h)
    have h2' : ¬ ca.tlsKeyPairs.length = 0 := fun h => h2 (List.length_eq_zero.mp h)
    rw [hval]
    rcases hrm : parseRoleMap ca.roleMap with e | tl
    · simp [checkUserOrHostCA, h1', h2', hgc, hgs, hrm, Except.map]
      intro hr hm
      exact absurd ⟨hr, hm⟩ hnb
    · simp [checkUserOrHostCA, h1', h2', hgc, hgs, hrm, Except.map]
      intro hr
      by_contra hm
      exact hnb ⟨hr, hm⟩

theorem c4_host_user_validation_pipeline_witness :
    isError (ValidateCertAuthority { caHost with checkingKeys := [] }) = true ∧
    isError (ValidateCertAuthority { caHost with tlsKeyPairs := [] }) = true ∧
    ValidateCertAuthority caHost = Except.map (fun _ => ()) (parseRoleMap caHost.roleMap) :=
  ⟨(c4_host_user_validation_pipeline { caHost with checkingKeys := [] }
      (Or.inl rfl) (by rfl)).1 rfl,
   (c4_host_user_validation_pipeline { caHost with tlsKeyPairs := [] }
      (Or.inl rfl) (by rfl)).2.1 rfl,
   (c4_host_user_validation_pipeline caHost (Or.inl rfl) (by rfl)).2.2.2.2
      ["ck"] ["k"] (by decide) (by decide) (by rfl) (by rfl) (by decide)⟩

/-- C7: `GetJWTSigner` fails exactly when the CA has no JWT key pairs,
the first pair's private key does not parse, or signer construction
fails; whenever the first pair's private key parses, the result is the
signer constructor applied to only that key, the CA's cluster name, the
fixed application-token algorithm, and the supplied clock, and any
successful result carries exactly that configuration. -/
theorem c7_get_jwt_signer_spec (ca : CertAuthorityV2) (clock : Clock) :
    (ca.jwtKeyPairs = [] → isError (GetJWTSigner ca clock) = true) ∧
    (∀ p rest, ca.jwtKeyPairs = p :: rest → p.privateKey.parses = false →
      isError (GetJWTSigner ca clock) = true) ∧
    (∀ p rest, ca.jwtKeyPairs = p :: rest → p.privateKey.parses = true →
      GetJWTSigner ca clock =
        jwtNew { clock := some clock, algorithm := ApplicationTokenAlgorithm,
                 clusterName := ca.clusterName, privateKey := some ⟨p.privateKey.data⟩,
                 publicKey := none }) ∧
    (∀ p rest k, ca.jwtKeyPairs = p :: rest → GetJWTSigner ca clock = .ok k →
      k.config = { clock := some clock, algorithm := ApplicationTokenAlgorithm,
                   clusterName := ca.clusterName,
                   privateKey := some ⟨p.privateKey.data⟩, publicKey := none }) := by
  refine ⟨?_, ?_, ?_, ?_⟩
  · intro h
    simp [GetJWTSigner, h, isError]
  · intro p rest h hp
    simp [GetJWTSigner, h, ParsePrivateKey, hp, isError]
  · intro p rest h hp
    simp [GetJWTSigner, h, ParsePrivateKey, hp]
  · intro p rest k h hk
    by_cases hp : p.privateKey.parses = true
    · rw [GetJWTSigner] at hk
      simp only [h, ParsePrivateKey, hp, if_pos] at hk
      rw [jwtNew] at hk
      by_cases hc : ca.clusterName = ""
      · simp [hc] at hk
      · simp [hc] at hk
        rw [← hk]
    · rw [GetJWTSigner] at hk
      simp [h, ParsePrivateKey, hp] at hk

def caJWT : CertAuthorityV2 :=
  { kind := "cert_authority", version := V2, metadata := baseMeta,
    caType := .jwtSigner, clusterName := "cluster-x", signingKeys := [],
    checkingKeys := [], tlsKeyPairs := [],
    jwtKeyPairs := [{ publicKey := blobOK "pub", privateKey := blobOK "priv" }],
    roles := [], roleMap := [], signingAlg := "" }

theorem c7_get_jwt_signer_spec_witness :
    isError (GetJWTSigner { caJWT with jwtKeyPairs := [] } 7) = true ∧
    GetJWTSigner caJWT 7 =
      jwtNew { clock := some 7, algorithm := ApplicationTokenAlgorithm,
               clusterName := caJWT.clusterName, privateKey := some ⟨"priv"⟩,
               publicKey := none } :=
  ⟨(c7_get_jwt_signer_spec { caJWT with jwtKeyPairs := [] } 7).1 rfl,
   (c7_get_jwt_signer_spec caJWT 7).2.2.1
     { publicKey := blobOK "pub", privateKey := blobOK "priv" } [] rfl rfl⟩

/-- C3 counterexample: unmarshaling a CA buffer with an explicit
non-zero expiry override returns the decoded CA with its expiry
untouched (zero), not the supplied override: `UnmarshalCertAuthority`
ignores the expiry option. -/
theorem c3_counterexample_ca_expiry_ignored :
    UnmarshalCertAuthority (.caDoc caHost) [WithExpires 5] = .ok caHost ∧
    caHost.metadata.expires ≠ 5 :=
  ⟨by rfl, by decide⟩

/-- C3 (amended): overrides are applied only after validation of the
decoded object succeeds (a validation error propagates and no object is
returned).  `UnmarshalClusterName` applies both the non-zero resource-ID
override and the non-zero expiry override; `UnmarshalCertAuthority`
applies only the resource-ID override and ignores the expiry option. -/
theorem c3_amended_overrides_after_validation
    (w : WireDoc) (opts : List MarshalOption) (cfg : MarshalConfig)
    (hcfg : CollectOptions opts = .ok cfg) :
    (∀ ca0, FastUnmarshalCA w = .ok ca0 → ca0.version = V2 →
      ValidateCertAuthority ca0 = .ok () →
      UnmarshalCertAuthority w opts =
        .ok (if cfg.id ≠ 0 then ca0.SetResourceID cfg.id else ca0)) ∧
    (∀ ca0 e, FastUnmarshalCA w = .ok ca0 → ca0.version = V2 →
      ValidateCertAuthority ca0 = .error e →
      UnmarshalCertAuthority w opts = .error e) ∧
    (∀ cn0, FastUnmarshalClusterName w = .ok cn0 →
      cn0.CheckAndSetDefaults = .ok () →
      UnmarshalClusterName w opts =
        .ok (if cfg.expires ≠ 0 then
               (if cfg.id ≠ 0 then cn0.SetResourceID cfg.id else cn0).SetExpiry cfg.expires
             else (if cfg.id ≠ 0 then cn0.SetResourceID cfg.id else cn0))) ∧
    (∀ cn0 e, FastUnmarshalClusterName w = .ok cn0 →
      cn0.CheckAndSetDefaults = .error e →
      UnmarshalClusterName w opts = .error e) := by
  refine ⟨?_, ?_, ?_, ?_⟩
  · intro ca0 hdec hver hval
    cases w with
    | emptyDoc => simp [FastUnmarshalCA] at hdec
    | clusterNameDoc v => simp [FastUnmarshalCA] at hdec
    | caDoc v =>
      have hv : v = ca0 := by simpa [FastUnmarshalCA] using hdec
      subst hv
      by_cases hid : cfg.id = 0 <;>
        simp [UnmarshalCertAuthority, hcfg, FastUnmarshalHeader, FastUnmarshalCA, hver, hval, hid]
  · intro ca0 e hdec hver hval
    cases w with
    | emptyDoc => simp [FastUnmarshalCA] at hdec
    | clusterNameDoc v => simp [FastUnmarshalCA] at hdec
    | caDoc v =>
      have hv : v = ca0 := by simpa [FastUnmarshalCA] using hdec
      subst hv
      simp [UnmarshalCertAuthority, hcfg, FastUnmarshalHeader, FastUnmarshalCA, hver, hval]
  · intro cn0 hdec hchk
    cases w with
    | emptyDoc => simp [FastUnmarshalClusterName] at hdec
    | caDoc v => simp [FastUnmarshalClusterName] at hdec
    | clusterNameDoc v =>
      have hv : v = cn0 := by simpa [FastUnmarshalClusterName] using hdec
      subst hv
      by_cases hid : cfg.id = 0 <;> by_cases hex : cfg.expires = 0 <;>
        simp [UnmarshalClusterName, hcfg, FastUnmarshalClusterName, hchk, hid, hex]
  · intro cn0 e hdec hchk
    cases w with
    | emptyDoc => simp [FastUnmarshalClusterName] at hdec
    | caDoc v => simp [FastUnmarshalClusterName] at hdec
    | clusterNameDoc v =>
      have hv : v = cn0 := by simpa [FastUnmarshalClusterName] using hdec
      subst hv
      simp [UnmarshalClusterName, hcfg, FastUnmarshalClusterName, hchk]

theorem c3_amended_overrides_after_validation_witness :
    UnmarshalCertAuthority (.caDoc caHost) [WithResourceID 9, WithExpires 5] =
      .ok (caHost.SetResourceID 9) ∧
    UnmarshalClusterName (.clusterNameDoc cnEx) [WithResourceID 9, WithExpires 5] =
      .ok ((cnEx.SetResourceID 9).SetExpiry 5) := by
  constructor
  · have h := (c3_amended_overrides_after_validation (.caDoc caHost)
      [WithResourceID 9, WithExpires 5]
      { id := 9, expires := 5, preserveResourceID := false } rfl).1 caHost rfl rfl (by rfl)
    simpa using h
  · have h := (c3_amended_overrides_after_validation (.clusterNameDoc cnEx)
      [WithResourceID 9, WithExpires 5]
      { id := 9, expires := 5, preserveResourceID := false } rfl).2.2.1 cnEx rfl (by rfl)
    simpa using h

theorem mem_poolAddCert (pool : List String) (x c : String) :
    c ∈ poolAddCert pool x ↔ c ∈ pool ∨ c = x := by
  by_cases h : x ∈ pool
  · simp only [poolAddCert, if_pos h]
    exact ⟨Or.inl, fun hc => hc.elim id (fun he => he ▸ h)⟩
  · simp [poolAddCert, h]

theorem poolAddPairs_ok (pairs : List TLSKeyPair) (pool : List String)
    (h : ∀ kp ∈ pairs, kp.cert.parses = true) :
    ∃ pool2, poolAddPairs pool pairs = .ok pool2 ∧
      ∀ c, c ∈ pool2 ↔ c ∈ pool ∨ ∃ kp ∈ pairs, kp.cert.data = c := by
  induction pairs generalizing pool with
  | nil => exact ⟨pool, rfl, by simp⟩
  | cons kp rest ih =>
    have hkp : kp.cert.parses = true := h kp (by simp)
    have hrest : ∀ x ∈ rest, x.cert.parses = true := fun x hx => h x (by simp [hx])
    obtain ⟨pool2, hp, hmem⟩ := ih (poolAddCert pool kp.cert.data) hrest
    refine ⟨pool2, ?_, ?_⟩
    · simp [poolAddPairs, ParseCertificatePEM, hkp, hp]
    · intro c
      rw [hmem c, mem_poolAddCert]
      constructor
      · rintro ((hc | hc) | ⟨x, hx, hd⟩)
        · exact Or.inl hc
        · exact Or.inr ⟨kp, by simp, hc.symm⟩
        · exact Or.inr ⟨x, by simp [hx], hd⟩
      · rintro (hc | ⟨x, hx, hd⟩)
        · exact Or.inl (Or.inl hc)
        · rcases List.mem_cons.mp hx with he | he
          · subst he
            exact Or.inl (Or.inr hd.symm)
          · exact Or.inr ⟨x, he, hd⟩

theorem poolAddPairs_bad (pairs : List TLSKeyPair) (pool : List String)
    (h : ∃ kp ∈ pairs, kp.cert.parses = false) :
    ∃ e, poolAddPairs pool pairs = .error e := by
  induction pairs generalizing pool with
  | nil => simp at h
  | cons kp rest ih =>
    by_cases hk : kp.cert.parses = true
    · obtain ⟨x, hx, hxp⟩ := h
      rcases List.mem_cons.mp hx with he | he
      · subst he
        rw [hk] at hxp
        simp at hxp
      · obtain ⟨e, hee⟩ := ih (poolAddCert pool kp.cert.data) ⟨x, he, hxp⟩
        exact ⟨e, by simp [poolAddPairs, ParseCertificatePEM, hk, hee]⟩
    · exact ⟨"failed to parse certificate PEM: " ++ kp.cert.data,
        by simp [poolAddPairs, ParseCertificatePEM, hk]⟩

theorem certPoolLoop_ok (cas : List CertAuthorityV2) (pool : List String)
    (h : ∀ a ∈ cas, ∀ kp ∈ a.tlsKeyPairs, kp.cert.parses = true) :
    ∃ pool2, certPoolLoop pool cas = .ok pool2 ∧
      ∀ c, c ∈ pool2 ↔ c ∈ pool ∨ ∃ a ∈ cas, ∃ kp ∈ a.tlsKeyPairs, kp.cert.data = c := by
  induction cas generalizing pool with
  | nil => exact ⟨pool, rfl, by simp⟩
  | cons a rest ih =>
    have ha : ∀ kp ∈ a.tlsKeyPairs, kp.cert.parses = true := h a (by simp)
    have hrest : ∀ x ∈ rest, ∀ kp ∈ x.tlsKeyPairs, kp.cert.parses = true :=
      fun x hx => h x (by simp [hx])
    by_cases hemp : a.tlsKeyPairs.length = 0
    · have hnil : a.tlsKeyPairs = [] := List.length_eq_zero.mp hemp
      obtain ⟨pool2, hp, hmem⟩ := ih pool hrest
      refine ⟨pool2, by simp [certPoolLoop, hemp, hp], ?_⟩
      intro c
      rw [hmem c]
      simp [hnil]
    · obtain ⟨pool1, hp1, hmem1⟩ := poolAddPairs_ok a.tlsKeyPairs pool ha
      obtain ⟨pool2, hp2, hmem2⟩ := ih pool1 hrest
      refine ⟨pool2, by simp [certPoolLoop, hemp, hp1, hp2], ?_⟩
      intro c
      rw [hmem2 c, hmem1 c]
      simp only [List.mem_cons, exists_eq_or_imp, or_assoc]

theorem certPoolLoop_bad (cas : List CertAuthorityV2) (pool : List String)
    (h : ∃ a ∈ cas, ∃ kp ∈ a.tlsKeyPairs, kp.cert.parses = false) :
    ∃ e, certPoolLoop pool cas = .error e := by
  induction cas generalizing pool with
  | nil => simp at h
  | cons a rest ih =>
    obtain ⟨x, hx, hbad⟩ := h
    rcases List.mem_cons.mp hx with he | he
    · subst he
      have hne : ¬ x.tlsKeyPairs.length = 0 := by
        obtain ⟨kp, hkp, _⟩ := hbad
        intro h0
        rw [List.length_eq_zero.mp h0] at hkp
        simp at hkp
      obtain ⟨e, he2⟩ := poolAddPairs_bad x.tlsKeyPairs pool hbad
      exact ⟨e, by simp [certPoolLoop, hne, he2]⟩
    · by_cases hemp : a.tlsKeyPairs.length = 0
      · obtain ⟨e, he2⟩ := ih pool ⟨x, he, hbad⟩
        exact ⟨e, by simp [certPoolLoop, hemp, he2]⟩
      · rcases hpa : poolAddPairs pool a.tlsKeyPairs with e | pool1
        · exact ⟨e, by simp [certPoolLoop, hemp, hpa]⟩
        · obtain ⟨e, he2⟩ := ih pool1 ⟨x, he, hbad⟩
          exact ⟨e, by simp [certPoolLoop, hemp, hpa, he2]⟩

/-- C8: when every TLS certificate parses, the multi-CA pool builder
returns exactly the certificates of the CAs that have TLS key pairs
(CAs with none are silently skipped and contribute nothing); any PEM
parse failure aborts with an error; and the single-CA `CertPool` fails
whenever the CA has zero TLS key pairs. -/
theorem c8_cert_pool_policies (cas : List CertAuthorityV2) (ca : CertAuthorityV2) :
    ((∀ a ∈ cas, ∀ kp ∈ a.tlsKeyPairs, kp.cert.parses = true) →
      ∃ pool, CertPoolFromCertAuthorities cas = .ok pool ∧
        ∀ c, c ∈ pool ↔ ∃ a ∈ cas, ∃ kp ∈ a.tlsKeyPairs, kp.cert.data = c) ∧
    ((∃ a ∈ cas, ∃ kp ∈ a.tlsKeyPairs, kp.cert.parses = false) →
      isError (CertPoolFromCertAuthorities cas) = true) ∧
    (ca.tlsKeyPairs = [] → isError (CertPool ca) = true) := by
  refine ⟨?_, ?_, ?_⟩
  · intro h
    obtain ⟨pool2, hp, hmem⟩ := certPoolLoop_ok cas [] h
    refine ⟨pool2, ?_, fun c => ?_⟩
    · simpa [CertPoolFromCertAuthorities] using hp
    · rw [hmem c]
      simp
  · intro h
    obtain ⟨e, he⟩ := certPoolLoop_bad cas [] h
    simp [CertPoolFromCertAuthorities, he, isError]
  · intro h
    simp [CertPool, h, isError]

theorem c8_cert_pool_policies_witness :
    (∃ pool, CertPoolFromCertAuthorities [ca1, ca2] = .ok pool ∧
      ∀ c, c ∈ pool ↔ ∃ a ∈ [ca1, ca2], ∃ kp ∈ a.tlsKeyPairs, kp.cert.data = c) ∧
    isError (CertPool ca2) = true :=
  ⟨(c8_cert_pool_policies [ca1, ca2] ca2).1 (by decide),
   (c8_cert_pool_policies [ca1, ca2] ca2).2.2 rfl⟩
